import Mathlib

/-
Verification of the streaming chunk relay and action-log reconstruction logic
of the Akash Agent console integration.

Shallow embedding of:
  - apps/deploy-web/src/components/akash-agent/hooks/useAkashAgent.ts
      (sendStreamingMessage, lines 101-161: line framing, event
       classification, action sequencing, response accumulation)
  - apps/deploy-web/src/pages/api/akash-agent/stream.ts
      (handler: request validation and upstream relay)
  - apps/deploy-web/src/store/agentStore.ts (addMessageAtom)
  - components/akash-agent/types.ts (AgentAction, StreamingResponseData,
      ChatMessage)

JavaScript strings are modelled as List Char.  JSON.parse is an external
library call; it is modelled as an oracle parameter
`parse : List Char → Option StreamingResponseData` mapping the text of a
trimmed line to the typed record the code reads fields from (none when
JSON.parse throws).  All stream-processing theorems quantify over every
such oracle.
-/

/-- JavaScript strings modelled as lists of characters. -/
abbrev Str := List Char

/-- Shorthand turning a Lean string literal into the List Char model. -/
def cl (s : String) : Str := s.toList

/-- Whitespace characters removed by the JavaScript String.prototype.trim
(the common ones occurring in this protocol: space, tab, newline,
carriage return, vertical tab, form feed). -/
def isJsWs (c : Char) : Bool :=
  c = ' ' || c = '\t' || c = '\n' || c = '\r' || c = '\x0b' || c = '\x0c'

/-- Model of the JavaScript String.prototype.trim: strip leading and
trailing whitespace. -/
def trim (s : Str) : Str :=
  ((s.dropWhile isJsWs).reverse.dropWhile isJsWs).reverse

/-- The command union of AgentAction in types.ts. -/
inductive AgentCommand where
  | chat | read_file | modify_file | create_file | delete_file
  | list_directory | search_project | run_subprocess | feedback | complete
deriving DecidableEq

/-- The status union of AgentAction in types.ts. -/
inductive ActionStatus where
  | pending | completed | error
deriving DecidableEq

/-- AgentAction from types.ts.  parameters is an opaque key-value mapping;
result is an opaque optional value; timestamp is an upstream numeric clock
value the code never computes with, modelled as an integer. -/
structure AgentAction where
  command : AgentCommand
  parameters : List (Str × Str)
  result : Option Str
  timestamp : Int
  sequence_index : Int
  status : Option ActionStatus
deriving DecidableEq

/-- StreamingResponseData from types.ts, as the runtime shape JSON.parse
yields: the discriminator and every payload field may be absent (the
switch in sendStreamingMessage has a default branch precisely because the
wire value need not match the declared union). -/
structure StreamingResponseData where
  type : Option Str
  action : Option AgentAction
  response : Option Str
  message : Option Str
deriving DecidableEq

/-- One observable effect of the streaming loop: an onAction callback
invocation carrying the arrival count, or an assignment to the
accumulated finalResponse. -/
inductive Ev where
  | act (a : AgentAction) (count : Nat)
  | finalResp (r : Str)
deriving DecidableEq

/-- The loop-local accumulator of sendStreamingMessage: actionCount
(line 102), finalResponse (line 103), and the trace of observable
events (callback invocations and finalResponse assignments). -/
structure Core where
  actionCount : Nat
  finalResponse : Str
  events : List Ev
deriving DecidableEq

/-- Initial accumulator: actionCount = 0, finalResponse = empty string. -/
def initCore : Core := ⟨0, [], []⟩

/-- The body of the per-line for-loop of sendStreamingMessage
(lines 116-146).  The line is trimmed; blank lines are skipped; the
trimmed line is parsed; on parse failure the catch logs and continues.
On success the switch dispatches on data.type.  Note that the throw in
the error case (line 138) is caught by the catch (parseError) of the
same loop body (line 143), which only logs: a well-formed error event
therefore has no observable effect and the loop continues. -/
def processLine (parse : Str → Option StreamingResponseData)
    (core : Core) (line : Str) : Core :=
  let t := trim line
  if t.isEmpty then core
  else
    match parse t with
    | none => core
    | some d =>
      if d.type = some (cl "action") then
        match d.action with
        | some a =>
          { core with
            actionCount := core.actionCount + 1,
            events := core.events ++ [Ev.act a (core.actionCount + 1)] }
        | none => core
      else if d.type = some (cl "final_response") then
        match d.response with
        | some r =>
          if r.isEmpty then core
          else { core with finalResponse := r,
                           events := core.events ++ [Ev.finalResp r] }
        | none => core
      else if d.type = some (cl "error") then
        core
      else
        core

/-- buffer.split(newline) followed by buffer = lines.pop(): returns the
complete lines and the trailing residual fragment. -/
def splitPop : Str → List Str × Str
  | [] => ([], [])
  | c :: cs =>
    let p := splitPop cs
    if c = '\n' then ([] :: p.1, p.2)
    else
      match p with
      | (l :: ls, r) => ((c :: l) :: ls, r)
      | ([], r) => ([], c :: r)

/-- The line-framing state of sendStreamingMessage: the pending-text
buffer (line 104) plus the accumulator. -/
structure LoopState where
  buffer : Str
  core : Core
deriving DecidableEq

/-- One iteration of the read loop (lines 106-147): append the decoded
chunk to the buffer, split on newline, keep the last incomplete fragment
as the new buffer, and run the per-line body over the complete lines. -/
def processChunk (parse : Str → Option StreamingResponseData)
    (st : LoopState) (chunk : Str) : LoopState :=
  let p := splitPop (st.buffer ++ chunk)
  ⟨p.2, p.1.foldl (processLine parse) st.core⟩

/-- End-of-stream residual handling (lines 149-159): a non-empty trimmed
residual is parsed, and used only when it is a final_response with a
truthy response payload; every other residual is dropped. -/
def flushResidual (parse : Str → Option StreamingResponseData)
    (st : LoopState) : Core :=
  let t := trim st.buffer
  if t.isEmpty then st.core
  else
    match parse t with
    | none => st.core
    | some d =>
      if d.type = some (cl "final_response") then
        match d.response with
        | some r =>
          if r.isEmpty then st.core
          else { st.core with finalResponse := r,
                              events := st.core.events ++ [Ev.finalResp r] }
        | none => st.core
      else st.core

/-- Initial framing state: empty buffer, initial accumulator. -/
def initState : LoopState := ⟨[], initCore⟩

/-- The streaming portion of sendStreamingMessage run to completion over
a finite sequence of decoded chunks: the read loop followed by the
residual flush.  The value the call returns is the finalResponse field
of the result. -/
def runStream (parse : Str → Option StreamingResponseData)
    (chunks : List Str) : Core :=
  flushResidual parse (chunks.foldl (processChunk parse) initState)

/-- The arrival counts delivered to the onAction callback, in order. -/
def actCounts (evs : List Ev) : List Nat :=
  evs.filterMap (fun e => match e with | Ev.act _ n => some n | _ => none)

/-- Invariant of the accumulator: the arrival counts recorded so far are
exactly 1, 2, ..., actionCount. -/
def countInv (core : Core) : Prop :=
  actCounts core.events = List.range' 1 core.actionCount

/-- A discriminator the switch of sendStreamingMessage recognizes. -/
def recognizedType (t : Option Str) : Prop :=
  t = some (cl "action") ∨ t = some (cl "final_response") ∨
    t = some (cl "error")

instance (t : Option Str) : Decidable (recognizedType t) := by
  unfold recognizedType; infer_instance

/- ------------------------------------------------------------------ -/
/- Relay endpoint: pages/api/akash-agent/stream.ts                    -/
/- ------------------------------------------------------------------ -/

/-- The req.body.message value as JavaScript sees it: absent (or another
falsy non-string), present but not a string, or a string. -/
inductive MsgVal where
  | absent
  | nonString
  | str (s : Str)
deriving DecidableEq

/-- The agent_config object of the request body (stream.ts lines 6-10). -/
structure ReqAgentConfig where
  agent_id : Option Str
  api_key : Option Str
  base_url : Option Str
deriving DecidableEq

/-- The process environment variables the handler reads. -/
structure RelayEnv where
  agentId : Option Str
  agentBaseUrl : Option Str
  agentProxyUrl : Option Str
deriving DecidableEq

/-- Outcome of the upstream fetch: the promise rejects with an error
message, or a response arrives with a status, status text, and an
optional body stream delivering a sequence of chunks (none models
response.body being unavailable). -/
inductive Upstream where
  | fetchFailure (msg : Str)
  | resp (status : Nat) (statusText : Str) (body : Option (List Str))
deriving DecidableEq

/-- Operations the handler performs on the downstream response object,
in order: a non-streaming JSON error reply (res.status(c).json),
writing the streaming headers (res.writeHead 200), forwarding one chunk
(res.write at line 98), writing the synthesized error record
(res.write at line 116) and ending the response (res.end). -/
inductive ResOp where
  | statusJson (code : Nat) (error : Str)
  | writeHead (code : Nat)
  | write (chunk : Str)
  | writeErrRecord (msg : Str)
  | ended
deriving DecidableEq

/-- JavaScript truthiness of an optional string (undefined and the empty
string are falsy). -/
def truthyStr (o : Option Str) : Bool :=
  match o with
  | some s => !s.isEmpty
  | none => false

/-- The JavaScript logical-or over optional strings: first truthy wins. -/
def orTruthy (a b : Option Str) : Option Str :=
  match a with
  | some s => if s.isEmpty then b else some s
  | none => b

/-- stream.ts line 30: agent_config?.base_url or AGENT_BASE_URL or
AGENT_PROXY_URL. -/
def resolveBaseUrl (agent_config : Option ReqAgentConfig)
    (env : RelayEnv) : Option Str :=
  orTruthy (agent_config.bind ReqAgentConfig.base_url)
    (orTruthy env.agentBaseUrl env.agentProxyUrl)

/-- stream.ts line 24: message is rejected when absent or falsy, not a
string, or blank after trimming. -/
def msgValid : MsgVal → Bool
  | MsgVal.str s => !(trim s).isEmpty
  | _ => false

/-- The fetch Response.ok flag: status in the 2xx range. -/
def respOk (status : Nat) : Bool := 200 ≤ status && status < 300

/-- The streaming stage of the handler (stream.ts lines 49-119): on a
rejected fetch, a non-2xx upstream status, or a missing upstream body,
the catch writes one synthesized error record and the finally block ends
the response; on success every chunk is forwarded and the response is
ended. -/
def relayUpstreamPart (up : Upstream) : List ResOp :=
  match up with
  | Upstream.fetchFailure m => [ResOp.writeErrRecord m, ResOp.ended]
  | Upstream.resp status statusText body =>
    if respOk status then
      match body with
      | some chunks => chunks.map ResOp.write ++ [ResOp.ended]
      | none =>
        [ResOp.writeErrRecord (cl "No response stream available from agent"),
         ResOp.ended]
    else
      [ResOp.writeErrRecord
        (cl "Agent proxy error: " ++ (toString status).toList
          ++ cl " " ++ statusText),
       ResOp.ended]

/-- The handler of stream.ts as the ordered trace of response operations
it performs, as a function of the request method, the body fields, the
environment, and the upstream outcome. -/
def handler (method : Str) (message : MsgVal)
    (agent_config : Option ReqAgentConfig) (env : RelayEnv)
    (up : Upstream) : List ResOp :=
  if method ≠ cl "POST" then
    [ResOp.statusJson 405 (cl "Method not allowed")]
  else if !msgValid message then
    [ResOp.statusJson 400
      (cl "Message is required and must be a non-empty string")]
  else if !truthyStr (resolveBaseUrl agent_config env) then
    [ResOp.statusJson 500
      (cl "Agent configuration missing. AGENT_BASE_URL or AGENT_PROXY_URL environment variable required.")]
  else
    ResOp.writeHead 200 :: relayUpstreamPart up

/-- The upstream outcomes C4 calls failures: fetch rejection, non-2xx
status, or no response stream. -/
def upstreamFailed : Upstream → Prop
  | Upstream.fetchFailure _ => True
  | Upstream.resp status _ body => respOk status = false ∨ body = none

instance (up : Upstream) : Decidable (upstreamFailed up) := by
  cases up <;> unfold upstreamFailed <;> infer_instance

/- ------------------------------------------------------------------ -/
/- Message store: store/agentStore.ts                                 -/
/- ------------------------------------------------------------------ -/

/-- The sender union of ChatMessage in types.ts. -/
inductive ChatMsgType where
  | user | agent
deriving DecidableEq

/-- The status union of ChatMessage in types.ts. -/
inductive ChatMsgStatus where
  | sending | sent | delivered | error | completed | pending
deriving DecidableEq

/-- ChatMessage from types.ts; the Date timestamp is modelled as epoch
milliseconds. -/
structure ChatMessage where
  id : Str
  type : ChatMsgType
  content : Str
  timestamp : Nat
  status : Option ChatMsgStatus
  sdl : Option Str
  actionType : Option AgentCommand
  sequenceIndex : Option Int
deriving DecidableEq

/-- The write function of addMessageAtom (agentStore.ts lines 109-115):
set(chatMessagesAtom, [...currentMessages, message]). -/
def addMessage (currentMessages : List ChatMessage)
    (message : ChatMessage) : List ChatMessage :=
  currentMessages ++ [message]

/- ------------------------------------------------------------------ -/
/- Concrete demonstration data for witnesses and counterexamples      -/
/- ------------------------------------------------------------------ -/

/-- A concrete action record as carried by demoLineAct. -/
def demoAction : AgentAction :=
  ⟨AgentCommand.chat, [], none, 1, 1, none⟩

/-- A well-formed error line on the wire. -/
def demoLineError : Str :=
  cl "\x7b\"type\":\"error\",\"message\":\"boom\"\x7d"

/-- A well-formed action line on the wire. -/
def demoLineAct : Str :=
  cl "\x7b\"type\":\"action\",\"action\":\x7b\"command\":\"chat\",\"parameters\":\x7b\x7d,\"timestamp\":1,\"sequence_index\":1\x7d\x7d"

/-- A well-formed final_response line with payload A. -/
def demoLineFinalA : Str :=
  cl "\x7b\"type\":\"final_response\",\"response\":\"A\"\x7d"

/-- A well-formed final_response line with payload B. -/
def demoLineFinalB : Str :=
  cl "\x7b\"type\":\"final_response\",\"response\":\"B\"\x7d"

/-- A well-formed final_response line whose payload is the empty string. -/
def demoLineFinalEmpty : Str :=
  cl "\x7b\"type\":\"final_response\",\"response\":\"\"\x7d"

/-- A well-formed line whose discriminator is unrecognized. -/
def demoLineUnknown : Str :=
  cl "\x7b\"type\":\"mystery\"\x7d"

/-- A well-formed action-typed line whose action field is absent. -/
def demoLineActAbsent : Str :=
  cl "\x7b\"type\":\"action\"\x7d"

/-- A line that is not valid JSON. -/
def demoLineBad : Str := cl "not json"

/-- A concrete parse oracle: the JSON.parse results for the
demonstration lines (anything else fails to parse). -/
def demoParse (s : Str) : Option StreamingResponseData :=
  if s = demoLineError then
    some ⟨some (cl "error"), none, none, some (cl "boom")⟩
  else if s = demoLineAct then
    some ⟨some (cl "action"), some demoAction, none, none⟩
  else if s = demoLineFinalA then
    some ⟨some (cl "final_response"), none, some (cl "A"), none⟩
  else if s = demoLineFinalB then
    some ⟨some (cl "final_response"), none, some (cl "B"), none⟩
  else if s = demoLineFinalEmpty then
    some ⟨some (cl "final_response"), none, some [], none⟩
  else if s = demoLineUnknown then
    some ⟨some (cl "mystery"), none, none, none⟩
  else if s = demoLineActAbsent then
    some ⟨some (cl "action"), none, none, none⟩
  else
    none

/- ------------------------------------------------------------------ -/
/- Framing lemmas                                                     -/
/- ------------------------------------------------------------------ -/

/-- A newline-free text frames no complete line: it is all residual. -/
theorem splitPop_of_no_nl (s : Str) (h : '\n' ∉ s) : splitPop s = ([], s) := by
  induction s with
  | nil => rfl
  | cons c cs ih =>
    have hc : ¬ c = '\n' := fun hx => h (hx ▸ List.mem_cons_self c cs)
    have hcs : '\n' ∉ cs := fun hx => h (List.mem_cons_of_mem c hx)
    simp [splitPop, hc, ih hcs]

/-- The residual fragment kept in the buffer never contains a newline. -/
theorem splitPop_residual_no_nl (s : Str) : '\n' ∉ (splitPop s).2 := by
  induction s with
  | nil => simp [splitPop]
  | cons c cs ih =>
    by_cases hc : c = '\n'
    · simpa [splitPop, hc] using ih
    · rcases hp : splitPop cs with ⟨ls, r⟩
      have ihr : '\n' ∉ r := by rw [hp] at ih; exact ih
      cases ls with
      | nil =>
        simp only [splitPop, hp, if_neg hc, List.mem_cons]
        rintro (hx | hx)
        · exact hc hx.symm
        · exact ihr hx
      | cons l ls' => simpa [splitPop, hc, hp] using ihr

/-- Splitting a concatenation when the right part frames no line. -/
theorem splitPop_append_nil (x y ry : Str) (h : splitPop y = ([], ry)) :
    splitPop (x ++ y) = ((splitPop x).1, (splitPop x).2 ++ ry) := by
  induction x with
  | nil => simp [splitPop, h]
  | cons c cs ih =>
    by_cases hc : c = '\n'
    · simp [splitPop, hc, ih]
    · rcases hp : splitPop cs with ⟨ls, r⟩
      cases ls with
      | nil => simp [splitPop, hc, ih, hp]
      | cons l ls' => simp [splitPop, hc, ih, hp]

/-- Splitting a concatenation when the right part frames some lines. -/
theorem splitPop_append_cons (x y l : Str) (ls : List Str) (ry : Str)
    (h : splitPop y = (l :: ls, ry)) :
    splitPop (x ++ y) =
      ((splitPop x).1 ++ ((splitPop x).2 ++ l) :: ls, ry) := by
  induction x with
  | nil => simp [splitPop, h]
  | cons c cs ih =>
    by_cases hc : c = '\n'
    · simp [splitPop, hc, ih]
    · rcases hp : splitPop cs with ⟨ls0, r0⟩
      cases ls0 with
      | nil => simp [splitPop, hc, ih, hp]
      | cons l0 ls0' => simp [splitPop, hc, ih, hp]

/-- Feeding two chunks one after the other equals feeding their
concatenation. -/
theorem processChunk_append (parse : Str → Option StreamingResponseData)
    (st : LoopState) (c1 c2 : Str) :
    processChunk parse (processChunk parse st c1) c2 =
      processChunk parse st (c1 ++ c2) := by
  have hres := splitPop_residual_no_nl (st.buffer ++ c1)
  have hr := splitPop_of_no_nl _ hres
  rcases h2 : splitPop c2 with ⟨ls2, r2⟩
  cases ls2 with
  | nil =>
    have hx := splitPop_append_nil (st.buffer ++ c1) c2 r2 h2
    have hy := splitPop_append_nil ((splitPop (st.buffer ++ c1)).2) c2 r2 h2
    rw [hr] at hy
    simp only [processChunk]
    rw [← List.append_assoc, hx, hy]
    simp
  | cons l ls =>
    have hx := splitPop_append_cons (st.buffer ++ c1) c2 l ls r2 h2
    have hy := splitPop_append_cons ((splitPop (st.buffer ++ c1)).2) c2 l ls r2 h2
    rw [hr] at hy
    simp only [processChunk]
    rw [← List.append_assoc, hx, hy]
    simp [List.foldl_append]

/-- Folding the read loop over a chunk list equals one iteration over the
joined text, provided the starting buffer holds no newline. -/
theorem foldl_processChunk_join (parse : Str → Option StreamingResponseData)
    (chunks : List Str) : ∀ st : LoopState, '\n' ∉ st.buffer →
    chunks.foldl (processChunk parse) st = processChunk parse st chunks.flatten := by
  induction chunks with
  | nil =>
    intro st h
    simp [processChunk, splitPop_of_no_nl st.buffer h]
  | cons c cs ih =>
    intro st h
    have hb : '\n' ∉ (processChunk parse st c).buffer := by
      simpa [processChunk] using splitPop_residual_no_nl (st.buffer ++ c)
    rw [List.foldl_cons, ih _ hb, processChunk_append]
    simp

/-- List.range' with step one grows by appending the next value. -/
theorem range'_concat_one (s n : Nat) :
    List.range' s (n + 1) = List.range' s n ++ [s + n] := by
  induction n generalizing s with
  | zero => simp [List.range'_succ, List.range']
  | succ k ih =>
    rw [List.range'_succ s (k + 1) 1, ih (s + 1), List.range'_succ s k 1]
    simp [Nat.add_assoc, Nat.add_comm 1 k]

/-- actCounts distributes over concatenation of event traces. -/
theorem actCounts_append (a b : List Ev) :
    actCounts (a ++ b) = actCounts a ++ actCounts b := by
  simp [actCounts]

/-- A single callback invocation records exactly its count. -/
theorem actCounts_act (a : AgentAction) (n : Nat) :
    actCounts [Ev.act a n] = [n] := rfl

/-- A finalResponse assignment records no count. -/
theorem actCounts_finalResp (r : Str) : actCounts [Ev.finalResp r] = [] := rfl

/-- The per-line body preserves the arrival-count invariant: a delivered
action records count actionCount + 1, and every other branch leaves the
recorded counts unchanged. -/
theorem countInv_processLine (parse : Str → Option StreamingResponseData)
    (core : Core) (l : Str) (h : countInv core) :
    countInv (processLine parse core l) := by
  unfold processLine
  by_cases ht : (trim l).isEmpty
  · simpa [ht]
  · rcases hp : parse (trim l) with _ | d
    · simpa [ht, hp]
    · by_cases h1 : d.type = some (cl "action")
      · rcases ha : d.action with _ | a
        · simpa [ht, hp, h1, ha]
        · unfold countInv at h ⊢
          simp only [ht, hp, h1, ha]
          simp only [Bool.not_eq_true] at ht
          simp [ht, actCounts_append, h, actCounts_act, range'_concat_one,
            Nat.add_comm 1 core.actionCount]
      · by_cases h2 : d.type = some (cl "final_response")
        · rcases hr : d.response with _ | r
          · simpa [ht, hp, h1, h2, hr]
          · by_cases he : r.isEmpty
            · simpa [ht, hp, h1, h2, hr, he]
            · unfold countInv at h ⊢
              simp only [ht, hp, h1, h2, hr, he]
              simp only [Bool.not_eq_true] at ht
              have hfa : ¬ ((cl "final_response" : Str) = cl "action") := by decide
              simp [ht, hfa, actCounts_append, h, actCounts_finalResp]
        · by_cases h3 : d.type = some (cl "error")
          · simpa [ht, hp, h1, h2, h3]
          · simpa [ht, hp, h1, h2, h3]

/-- The invariant passes through any list of complete lines. -/
theorem countInv_foldl_lines (parse : Str → Option StreamingResponseData)
    (lines : List Str) : ∀ core : Core, countInv core →
    countInv (lines.foldl (processLine parse) core) := by
  induction lines with
  | nil => intro core h; simpa
  | cons l ls ih =>
    intro core h
    rw [List.foldl_cons]
    exact ih _ (countInv_processLine parse core l h)

/-- The invariant passes through one read-loop iteration. -/
theorem countInv_processChunk (parse : Str → Option StreamingResponseData)
    (st : LoopState) (c : Str) (h : countInv st.core) :
    countInv (processChunk parse st c).core := by
  simpa [processChunk] using
    countInv_foldl_lines parse (splitPop (st.buffer ++ c)).1 st.core h

/-- The invariant passes through the whole read loop. -/
theorem countInv_foldl_chunks (parse : Str → Option StreamingResponseData)
    (chunks : List Str) : ∀ st : LoopState, countInv st.core →
    countInv (chunks.foldl (processChunk parse) st).core := by
  induction chunks with
  | nil => intro st h; simpa
  | cons c cs ih =>
    intro st h
    rw [List.foldl_cons]
    exact ih _ (countInv_processChunk parse st c h)

/-- The residual flush records no arrival count. -/
theorem countInv_flushResidual (parse : Str → Option StreamingResponseData)
    (st : LoopState) (h : countInv st.core) :
    countInv (flushResidual parse st) := by
  unfold flushResidual
  by_cases ht : (trim st.buffer).isEmpty
  · simpa [ht]
  · rcases hp : parse (trim st.buffer) with _ | d
    · simpa [ht, hp]
    · by_cases h2 : d.type = some (cl "final_response")
      · rcases hr : d.response with _ | r
        · simpa [ht, hp, h2, hr]
        · by_cases he : r.isEmpty
          · simpa [ht, hp, h2, hr, he]
          · unfold countInv at h ⊢
            simp only [ht, hp, h2, hr, he]
            simp only [Bool.not_eq_true] at ht
            simp [ht, actCounts_append, h, actCounts_finalResp]
      · simpa [ht, hp, h2]

/-- The full streaming run satisfies the arrival-count invariant. -/
theorem countInv_runStream (parse : Str → Option StreamingResponseData)
    (chunks : List Str) : countInv (runStream parse chunks) := by
  unfold runStream
  exact countInv_flushResidual parse _
    (countInv_foldl_chunks parse chunks initState (by simp [initState, initCore, countInv, actCounts]))

/- ------------------------------------------------------------------ -/
/- Claim theorems                                                     -/
/- ------------------------------------------------------------------ -/

/-- Claim C2: for every parse oracle and every two ways of cutting a
payload into chunks whose concatenation is the same text, the line
framing and classification of sendStreamingMessage produce the identical
final accumulator - in particular the identical ordered sequence of
observable events (action deliveries with their counts and
final-response updates) and the identical returned finalResponse.
Chunks are sequences of decoded characters; reassembly of bytes split
inside a character is performed upstream by the streaming TextDecoder. -/
theorem chunk_boundary_independence (parse : Str → Option StreamingResponseData)
    (chunks1 chunks2 : List Str) (h : chunks1.flatten = chunks2.flatten) :
    runStream parse chunks1 = runStream parse chunks2 := by
  unfold runStream
  rw [foldl_processChunk_join parse chunks1 initState (by simp [initState]),
    foldl_processChunk_join parse chunks2 initState (by simp [initState]), h]

/-- Witness for C2: a two-line demonstration payload cut mid-line into
two chunks versus delivered as one chunk yields the same result. -/
theorem chunk_boundary_independence_witness :
    runStream demoParse
        [(demoLineFinalA ++ cl "\n" ++ demoLineAct ++ cl "\n").take 20,
         (demoLineFinalA ++ cl "\n" ++ demoLineAct ++ cl "\n").drop 20] =
      runStream demoParse [demoLineFinalA ++ cl "\n" ++ demoLineAct ++ cl "\n"] :=
  chunk_boundary_independence demoParse _ _ (by simp)

/-- Claim C3: for every parse oracle and every chunk sequence, the
arrival counts passed to the onAction callback are exactly
1, 2, 3, ... with no gaps or repeats - the count list equals
List.range' 1 of its own length - independent of the sequence_index
values carried inside the action events (the statement quantifies over
every oracle, hence over every sequence_index assignment, including
missing, duplicated, or out-of-order ones). -/
theorem arrival_counts_consecutive (parse : Str → Option StreamingResponseData)
    (chunks : List Str) :
    actCounts (runStream parse chunks).events =
      List.range' 1 (actCounts (runStream parse chunks).events).length := by
  have h := countInv_runStream parse chunks
  unfold countInv at h
  rw [h]
  simp [List.length_range']

/-- Claim C5: a line that fails to parse, or parses with an absent or
unrecognized type discriminator, produces zero observable events (the
accumulator is unchanged: no action delivery, no final-response change,
no count change) and does not abort processing of subsequent lines. -/
theorem malformed_line_skipped (parse : Str → Option StreamingResponseData)
    (core : Core) (l : Str)
    (h : parse (trim l) = none ∨
      ∃ d, parse (trim l) = some d ∧ ¬ recognizedType d.type) :
    processLine parse core l = core ∧
      ∀ ls : List Str, (l :: ls).foldl (processLine parse) core =
        ls.foldl (processLine parse) core := by
  have hskip : processLine parse core l = core := by
    unfold processLine
    by_cases ht : (trim l).isEmpty
    · simp [ht]
    · rcases h with hn | ⟨d, hd, hrec⟩
      · simp [ht, hn]
      · have h1 : ¬ d.type = some (cl "action") := fun hx => hrec (Or.inl hx)
        have h2 : ¬ d.type = some (cl "final_response") := fun hx =>
          hrec (Or.inr (Or.inl hx))
        have h3 : ¬ d.type = some (cl "error") := fun hx =>
          hrec (Or.inr (Or.inr hx))
        simp [ht, hd, h1, h2, h3]
  exact ⟨hskip, fun ls => by rw [List.foldl_cons, hskip]⟩

/-- Witness for C5: a non-JSON line and a line with an unrecognized
discriminator both leave the initial accumulator unchanged. -/
theorem malformed_line_skipped_witness :
    processLine demoParse initCore demoLineBad = initCore ∧
      ∀ ls : List Str, (demoLineBad :: ls).foldl (processLine demoParse) initCore =
        ls.foldl (processLine demoParse) initCore :=
  malformed_line_skipped demoParse initCore demoLineBad (Or.inl (by decide))

/-- Claim C10: a well-formed line whose type discriminator is action but
whose action field is absent produces no onAction invocation, leaves the
arrival count and the entire accumulator unchanged, and does not abort
processing of subsequent lines, so the count passed with the next
delivered action is unaffected. -/
theorem action_without_payload_skipped (parse : Str → Option StreamingResponseData)
    (core : Core) (l : Str) (d : StreamingResponseData)
    (h1 : parse (trim l) = some d) (h2 : d.type = some (cl "action"))
    (h3 : d.action = none) :
    processLine parse core l = core ∧
      ∀ ls : List Str, (l :: ls).foldl (processLine parse) core =
        ls.foldl (processLine parse) core := by
  have hskip : processLine parse core l = core := by
    unfold processLine
    by_cases ht : (trim l).isEmpty
    · simp [ht]
    · simp [ht, h1, h2, h3]
  exact ⟨hskip, fun ls => by rw [List.foldl_cons, hskip]⟩

/-- Witness for C10: the action-typed line with no action payload leaves
the initial accumulator unchanged. -/
theorem action_without_payload_skipped_witness :
    processLine demoParse initCore demoLineActAbsent = initCore ∧
      ∀ ls : List Str,
        (demoLineActAbsent :: ls).foldl (processLine demoParse) initCore =
          ls.foldl (processLine demoParse) initCore :=
  action_without_payload_skipped demoParse initCore demoLineActAbsent
    ⟨some (cl "action"), none, none, none⟩ (by decide) (by decide) (by decide)

/-- Claim C1 (code bug): a well-formed error-kind line is NOT escalated.
The throw at line 138 of useAkashAgent.ts is caught by the catch
(parseError) of the same loop iteration (line 143), which only logs.
Concretely: a stream consisting of a well-formed error line followed by
an action line completes normally - the error line has no observable
effect, the following action is still delivered with arrival count 1,
and the call returns the (empty) finalResponse instead of failing. -/
theorem error_event_swallowed :
    processLine demoParse initCore demoLineError = initCore ∧
      (runStream demoParse
        [demoLineError ++ cl "\n" ++ demoLineAct ++ cl "\n"]).events =
        [Ev.act demoAction 1] ∧
      (runStream demoParse
        [demoLineError ++ cl "\n" ++ demoLineAct ++ cl "\n"]).finalResponse =
        [] := by
  refine ⟨by decide, by decide, by decide⟩

/-- Claim C6 counterexample: the claim "each final_response event
overwrites the stored value with the newest value" is false as stated.
In a stream whose two lines are a final_response with payload A and then
a final_response with payload the empty string (a well-formed
final_response event), the accumulated finalResponse is A, not the
payload of the second event: the guard if (data.response) treats the
empty string as falsy and skips the overwrite. -/
theorem final_response_empty_second_cex :
    demoParse (trim demoLineFinalEmpty) =
      some ⟨some (cl "final_response"), none, some [], none⟩ ∧
      (runStream demoParse
        [demoLineFinalA ++ cl "\n" ++ demoLineFinalEmpty ++ cl "\n"]).finalResponse =
        cl "A" ∧
      ¬ (runStream demoParse
        [demoLineFinalA ++ cl "\n" ++ demoLineFinalEmpty ++ cl "\n"]).finalResponse =
        [] := by
  refine ⟨by decide, by decide, by decide⟩

/-- Claim C6 as amended: in a stream of two final_response events, the
accumulated finalResponse equals the payload of the second whenever that
payload is non-empty; a final_response whose payload is empty (or
absent) is ignored and does not overwrite. -/
theorem final_response_last_truthy_wins
    (parse : Str → Option StreamingResponseData) (chunks : List Str)
    (l1 l2 : Str) (d1 d2 : StreamingResponseData) (r1 r2 : Str)
    (hsplit : splitPop chunks.flatten = ([l1, l2], []))
    (h1 : parse (trim l1) = some d1)
    (ht1 : d1.type = some (cl "final_response"))
    (hr1 : d1.response = some r1)
    (h2 : parse (trim l2) = some d2)
    (ht2 : d2.type = some (cl "final_response"))
    (hr2 : d2.response = some r2)
    (hne : ¬ r2 = [])
    (htrim2 : ¬ (trim l2).isEmpty = true) :
    (runStream parse chunks).finalResponse = r2 := by
  unfold runStream
  rw [foldl_processChunk_join parse chunks initState (by simp [initState])]
  have hproc : processChunk parse initState chunks.flatten =
      ⟨[], [l1, l2].foldl (processLine parse) initCore⟩ := by
    simp [processChunk, initState, hsplit]
  rw [hproc]
  have hflush : ∀ core : Core,
      flushResidual parse ⟨[], core⟩ = core := by
    intro core
    unfold flushResidual
    simp [trim]
  rw [hflush]
  have hlast : ∀ core : Core, (processLine parse core l2).finalResponse = r2 := by
    intro core
    unfold processLine
    have hfa : ¬ ((cl "final_response" : Str) = cl "action") := by decide
    have hemp : r2.isEmpty = false := by
      cases r2 with
      | nil => exact absurd rfl hne
      | cons c cs => rfl
    simp [htrim2, h2, ht2, hfa, hr2, hemp]
  simpa using hlast (processLine parse initCore l1)

/-- Witness for the amended C6: payload A then payload B yields B. -/
theorem final_response_last_truthy_wins_witness :
    (runStream demoParse
      [demoLineFinalA ++ cl "\n" ++ demoLineFinalB ++ cl "\n"]).finalResponse =
      cl "B" :=
  final_response_last_truthy_wins demoParse _ demoLineFinalA demoLineFinalB
    ⟨some (cl "final_response"), none, some (cl "A"), none⟩
    ⟨some (cl "final_response"), none, some (cl "B"), none⟩
    (cl "A") (cl "B") (by decide) (by decide) (by decide) (by decide)
    (by decide) (by decide) (by decide) (by decide) (by decide)

/-- Claim C7 counterexample: the end-of-stream residual is NOT classified
like any other line.  A stream whose sole content is a well-formed
action line without a trailing newline produces no observable event at
all, whereas the same text followed by a newline (a complete line)
delivers the action with arrival count 1: the residual handler at lines
150-159 only checks for final_response and drops residual action (and
error) records. -/
theorem residual_not_classified_cex :
    (runStream demoParse [demoLineAct]).events = [] ∧
      (runStream demoParse [demoLineAct ++ cl "\n"]).events =
        [Ev.act demoAction 1] := by
  refine ⟨by decide, by decide⟩

/-- Claim C7 as amended: on stream end a non-empty residual is parsed
and applied only when it is a final_response with a non-empty payload,
in which case it overwrites finalResponse; a residual that fails to
parse, or parses to any other kind of record (action, error, unknown),
or is a final_response with an empty or absent payload, is dropped
silently. -/
theorem residual_flush_final_response_only
    (parse : Str → Option StreamingResponseData) (st : LoopState) :
    (parse (trim st.buffer) = none → flushResidual parse st = st.core) ∧
    (∀ d : StreamingResponseData, parse (trim st.buffer) = some d →
      ¬ d.type = some (cl "final_response") → flushResidual parse st = st.core) ∧
    (∀ d : StreamingResponseData, parse (trim st.buffer) = some d →
      d.type = some (cl "final_response") →
      (d.response = none ∨ d.response = some []) →
      flushResidual parse st = st.core) ∧
    (∀ (d : StreamingResponseData) (r : Str), parse (trim st.buffer) = some d →
      d.type = some (cl "final_response") → d.response = some r → ¬ r = [] →
      ¬ (trim st.buffer).isEmpty = true →
      flushResidual parse st =
        { st.core with finalResponse := r,
                       events := st.core.events ++ [Ev.finalResp r] }) := by
  refine ⟨?_, ?_, ?_, ?_⟩
  · intro hn
    unfold flushResidual
    by_cases ht : (trim st.buffer).isEmpty <;> simp [ht, hn]
  · intro d hd htype
    unfold flushResidual
    by_cases ht : (trim st.buffer).isEmpty <;> simp [ht, hd, htype]
  · intro d hd htype hresp
    unfold flushResidual
    by_cases ht : (trim st.buffer).isEmpty
    · simp [ht]
    · rcases hresp with hr | hr <;> simp [ht, hd, htype, hr]
  · intro d r hd htype hr hne ht
    unfold flushResidual
    have hemp : r.isEmpty = false := by
      cases r with
      | nil => exact absurd rfl hne
      | cons c cs => rfl
    simp [ht, hd, htype, hr, hemp]

/-- Witness for the amended C7: a residual holding a final_response line
with payload A overwrites finalResponse with A. -/
theorem residual_flush_final_response_only_witness :
    flushResidual demoParse ⟨demoLineFinalA, initCore⟩ =
      { initCore with finalResponse := cl "A",
                      events := [Ev.finalResp (cl "A")] } :=
  (residual_flush_final_response_only demoParse
      ⟨demoLineFinalA, initCore⟩).2.2.2
    ⟨some (cl "final_response"), none, some (cl "A"), none⟩ (cl "A")
    (by decide) (by decide) (by decide) (by decide) (by decide)

/-- Claim C4: for every run of the relay handler in which the request
passes validation and the upstream request fails (the fetch rejects,
the upstream status is non-2xx, or no response stream is available),
the handler writes exactly one synthesized error-kind record to the
downstream response and then ends it: the whole downstream trace is the
streaming headers, one error record, and the end of the response - the
downstream caller always receives a terminal signal. -/
theorem relay_upstream_failure_single_error
    (method : Str) (message : MsgVal) (agent_config : Option ReqAgentConfig)
    (env : RelayEnv) (up : Upstream)
    (hm : method = cl "POST") (hv : msgValid message = true)
    (hb : truthyStr (resolveBaseUrl agent_config env) = true)
    (hf : upstreamFailed up) :
    ∃ m : Str, handler method message agent_config env up =
      [ResOp.writeHead 200, ResOp.writeErrRecord m, ResOp.ended] := by
  subst hm
  unfold handler
  simp only [ne_eq, not_true_eq_false, if_false, hv, hb, Bool.not_true,
    Bool.false_eq_true]
  cases up with
  | fetchFailure m =>
    exact ⟨m, by simp [relayUpstreamPart]⟩
  | resp status statusText body =>
    unfold upstreamFailed at hf
    by_cases hok : respOk status
    · have hbody : body = none := by
        rcases hf with hf | hf
        · rw [hok] at hf; exact absurd hf (by simp)
        · exact hf
      exact ⟨cl "No response stream available from agent",
        by simp [relayUpstreamPart, hok, hbody]⟩
    · exact ⟨cl "Agent proxy error: " ++ (toString status).toList
        ++ cl " " ++ statusText, by simp [relayUpstreamPart, hok]⟩

/-- Witness for C4: a POST with a valid message and a configured base
address whose upstream replies 502 with no body yields exactly the
headers, one error record, and the end of the response. -/
theorem relay_upstream_failure_single_error_witness :
    ∃ m : Str, handler (cl "POST") (MsgVal.str (cl "hi")) none
        ⟨none, some (cl "http://agent.example"), none⟩
        (Upstream.resp 502 (cl "Bad Gateway") none) =
      [ResOp.writeHead 200, ResOp.writeErrRecord m, ResOp.ended] :=
  relay_upstream_failure_single_error (cl "POST") (MsgVal.str (cl "hi")) none
    ⟨none, some (cl "http://agent.example"), none⟩
    (Upstream.resp 502 (cl "Bad Gateway") none)
    rfl (by decide) (by decide) (by decide)

/-- Claim C8: the relay handler rejects a non-POST method with an HTTP
405 JSON error; a missing, non-string, or blank message with an HTTP
400 JSON error; and a missing base address with an HTTP 500 JSON error.
In each case the trace is that single non-streaming JSON reply: no
streaming headers are written and no upstream stream is opened. -/
theorem relay_validation_responses
    (method : Str) (message : MsgVal) (agent_config : Option ReqAgentConfig)
    (env : RelayEnv) (up : Upstream) :
    (¬ method = cl "POST" → handler method message agent_config env up =
      [ResOp.statusJson 405 (cl "Method not allowed")]) ∧
    (method = cl "POST" → msgValid message = false →
      handler method message agent_config env up =
        [ResOp.statusJson 400
          (cl "Message is required and must be a non-empty string")]) ∧
    (method = cl "POST" → msgValid message = true →
      truthyStr (resolveBaseUrl agent_config env) = false →
      handler method message agent_config env up =
        [ResOp.statusJson 500
          (cl "Agent configuration missing. AGENT_BASE_URL or AGENT_PROXY_URL environment variable required.")]) := by
  refine ⟨?_, ?_, ?_⟩
  · intro hm
    unfold handler
    simp [hm]
  · intro hm hv
    subst hm
    unfold handler
    simp [hv]
  · intro hm hv hb
    subst hm
    unfold handler
    simp [hv, hb]

/-- Witness for C8: a GET request is answered with the 405 JSON error. -/
theorem relay_validation_responses_witness :
    handler (cl "GET") MsgVal.absent none ⟨none, none, none⟩
        (Upstream.fetchFailure []) =
      [ResOp.statusJson 405 (cl "Method not allowed")] :=
  (relay_validation_responses (cl "GET") MsgVal.absent none ⟨none, none, none⟩
    (Upstream.fetchFailure [])).1 (by decide)

/-- Claim C9: the message log is append-only.  For every current message
list and message, the write function of addMessageAtom produces a list
whose prefix of the previous length is exactly the previous list,
unchanged and in order, whose length grew by exactly one, and whose last
element is the new message. -/
theorem addMessage_append_only (msgs : List ChatMessage) (m : ChatMessage) :
    (addMessage msgs m).take msgs.length = msgs ∧
      (addMessage msgs m).length = msgs.length + 1 ∧
      (addMessage msgs m).getLast? = some m := by
  refine ⟨?_, ?_, ?_⟩
  · simp [addMessage, List.take_left]
  · simp [addMessage]
  · simp [addMessage]
